import Mathlib

/-!
Verification of the document-reader's speech-synchronization, conversion-job
and rendering logic, shallowly embedded from the TypeScript sources
(`useSpeechSynthesis.ts`, `AdvancedDocumentViewer.tsx`, `fileConverter.ts`,
the `FileConverter` and `MusicPlayerModule` components, and `PDFRenderer`).

Texts are modelled as Lean `String`s (a `String` is a list of characters,
matching the JS view of a string as a sequence of code units for the
whitespace/offset arithmetic used here); JS numbers that only ever hold
small exact values (rates, volumes, progress percentages) are modelled
as rationals `ℚ`.
-/

namespace DocReader

/-! ## Speech Engine Adapter: `useSpeechSynthesis.ts` -/

/-- `SpeechOptions` from `useSpeechSynthesis.ts`: `{ rate, pitch, volume }`
(the optional `voice` field plays no role in the numeric claims). -/
structure SpeechOptions where
  rate : ℚ
  pitch : ℚ
  volume : ℚ
deriving DecidableEq

/-- JS `x || d` on numbers: `0` is falsy and is replaced by the default.
(`NaN` is the other falsy number; it has no counterpart in `ℚ` and is not
modelled.) -/
def jsOrDefault (x d : ℚ) : ℚ := if x = 0 then d else x

/-- `utterance.rate = Math.max(0.1, Math.min(10, options.rate || 1))`. -/
def storedRate (o : SpeechOptions) : ℚ := max (1/10) (min 10 (jsOrDefault o.rate 1))

/-- `utterance.pitch = Math.max(0, Math.min(2, options.pitch || 1))`. -/
def storedPitch (o : SpeechOptions) : ℚ := max 0 (min 2 (jsOrDefault o.pitch 1))

/-- `utterance.volume = Math.max(0, Math.min(1, options.volume || 1))`. -/
def storedVolume (o : SpeechOptions) : ℚ := max 0 (min 1 (jsOrDefault o.volume 1))

/-- The pure clamp-to-interval function the spec describes ("out-of-range
inputs are coerced to the nearest bound"). Spec-side definition, used only
to compare the stored values against the spec's claim. -/
def specClamp (lo hi x : ℚ) : ℚ := max lo (min hi x)

/-! ### Whitespace split, `text.split(/\s+/)`

JS `String.prototype.split` with the regex `/\s+/` cuts the string at every
maximal run of whitespace; a leading (resp. trailing) run contributes an
empty first (resp. last) piece, and the empty string yields `[""]`. -/

/-- Characters matched by the JS regex class `\s` (the ASCII ones, which are
the only ones that can occur in the concrete texts considered here). -/
def isWsChar (c : Char) : Bool :=
  c = ' ' || c = '\t' || c = '\n' || c = '\r' || c = '\x0b' || c = '\x0c'

/-- Worker for the `/\s+/` split.  The boolean is `true` while consuming a
whitespace run, `false` while accumulating a word (accumulator reversed). -/
def splitWsGo : Bool → List Char → List Char → List (List Char)
  | false, acc, [] => [acc.reverse]
  | false, acc, c :: cs =>
    if isWsChar c then acc.reverse :: splitWsGo true [] cs
    else splitWsGo false (c :: acc) cs
  | true, _, [] => [[]]
  | true, _, c :: cs =>
    if isWsChar c then splitWsGo true [] cs
    else splitWsGo false [c] cs

/-- `text.split(/\s+/)` from the `onboundary` handler. -/
def splitWs (s : String) : List (List Char) := splitWsGo false [] s.data

/-! ### The boundary-event word scan

```js
const words = text.split(/\s+/);
let charCount = 0;
let wordIndex = 0;
for (let i = 0; i < words.length; i++) {
  if (charCount + words[i].length >= event.charIndex) { wordIndex = i; break; }
  charCount += words[i].length + 1; // +1 for space
}
setCurrentWordIndex(wordIndex);
```
-/

/-- The loop body: `cc` is the running `charCount`, `i` the absolute index of
the word at the head of the remaining list.  When the loop falls through
without a qualifying word, the result is the initial value `0` of
`wordIndex`, not the last index. -/
def findWordIndexAux (o : Nat) : List (List Char) → Nat → Nat → Nat
  | [], _, _ => 0
  | w :: ws, cc, i =>
    if o ≤ cc + w.length then i else findWordIndexAux o ws (cc + w.length + 1) (i + 1)

/-- The whole scan over the split words. -/
def findWordIndex (o : Nat) (ws : List (List Char)) : Nat := findWordIndexAux o ws 0 0

/-- `charCount` accumulated over the words before index `i`:
each prior word contributes its length plus one separator. -/
def charCountAt (ws : List (List Char)) (i : Nat) : Nat :=
  ((ws.take i).map (fun w => w.length + 1)).sum

/-- Cumulative end offset of word `i` (`charCount + wordLength` in the code);
`0` length for an out-of-range index. -/
def wordEndOffset (ws : List (List Char)) (i : Nat) : Nat :=
  charCountAt ws i + ((ws.get? i).getD []).length

/-- Spec-side description of the scan, for comparison: the first (least)
index whose cumulative end offset reaches the event offset, and `0` when no
word qualifies. -/
def specScanFirstQualifying (o : Nat) (ws : List (List Char)) : Nat :=
  match (List.range ws.length).find? (fun i => decide (o ≤ wordEndOffset ws i)) with
  | some i => i
  | none => 0

/-! ### Hook state and event handlers

The hook state relevant to the claims: `isPlaying`, `isPaused`,
`currentText`, `currentWordIndex`, and the identity (a generation number)
of the stored utterance.  Each created utterance is identified by its
generation number; its handlers close over the `text` it was created with.
Crucially, faithful to the source, `onboundary` never consults the stored
utterance identity before mutating state. -/

structure HookState where
  isPlaying : Bool
  isPaused : Bool
  currentText : String
  currentWordIndex : Nat
  currentUtterance : Option Nat
deriving DecidableEq

/-- The synchronous part of `speak(text, options)` after the guards: cancel,
reset state, create and store the new utterance (generation `g`). -/
def speakUpdate (g : Nat) (text : String) (s : HookState) : HookState :=
  { s with currentText := text, currentWordIndex := 0,
           isPlaying := false, isPaused := false, currentUtterance := some g }

/-- `utterance.onstart`. -/
def onStartEvent (s : HookState) : HookState :=
  { s with isPlaying := true, isPaused := false }

/-- `utterance.onboundary` for an utterance created with text `utterText`:
if the event is a word boundary, recompute the word index from the offset —
with no check that this utterance is still the current one. -/
def onBoundaryEvent (utterText : String) (name : String) (charIndex : Nat)
    (s : HookState) : HookState :=
  if name = "word" then
    { s with currentWordIndex := findWordIndex charIndex (splitWs utterText) }
  else s

/-- `utterance.onpause`. -/
def onPauseEvent (s : HookState) : HookState := { s with isPaused := true }

/-- `utterance.onresume`. -/
def onResumeEvent (s : HookState) : HookState := { s with isPaused := false }

/-- The `pause()` command: only acts when supported and `isPlaying && !isPaused`. -/
def pauseCmd (isSupported : Bool) (s : HookState) : HookState :=
  if isSupported then
    (if s.isPlaying && !s.isPaused then { s with isPaused := true } else s)
  else s

/-- The `resume()` command: only acts when supported and `isPaused`. -/
def resumeCmd (isSupported : Bool) (s : HookState) : HookState :=
  if isSupported then
    (if s.isPaused then { s with isPaused := false } else s)
  else s

/-- The `stop()` command. -/
def stopCmd (isSupported : Bool) (s : HookState) : HookState :=
  if isSupported then
    { s with isPlaying := false, isPaused := false,
             currentUtterance := none, currentWordIndex := 0 }
  else s

/-- Initial hook state. -/
def initHookState : HookState :=
  { isPlaying := false, isPaused := false, currentText := "",
    currentWordIndex := 0, currentUtterance := none }

/-! ## Reading-State Coordinator: `AdvancedDocumentViewer.tsx` -/

/-- JS `s.slice(a, b)` for non-negative indices: the characters in `[a, b)`,
clamped to the string (empty when `b ≤ a` or `a` is past the end). -/
def jsSlice (s : String) (a b : Nat) : String := ⟨(s.data.drop a).take (b - a)⟩

/-- The reading-progress effect:

```js
const words = currentText.split(' ');
if (currentWordIndex < words.length) {
  const currentWord = words[currentWordIndex];
  const wordsBeforeCurrent = words.slice(0, currentWordIndex);
  const charStart = wordsBeforeCurrent.join(' ').length + (currentWordIndex > 0 ? 1 : 0);
  const charEnd = charStart + currentWord.length;
  setReadingHighlight({ start: charStart, end: charEnd });
}
```
Returns `none` when the guard fails (the previous highlight is retained).
JS `currentText.split(' ')` — which cuts at every single space, keeping
empty pieces — is `List.splitOn ' '` on the character list. -/
def computeHighlight (text : String) (i : Nat) : Option (Nat × Nat) :=
  if h : i < (text.data.splitOn ' ').length then
    some ((List.intercalate [' '] ((text.data.splitOn ' ').take i)).length +
        (if 0 < i then 1 else 0),
      ((List.intercalate [' '] ((text.data.splitOn ' ').take i)).length +
        (if 0 < i then 1 else 0)) +
        (((text.data.splitOn ' ')).get ⟨i, h⟩).length)
  else none

/-- `renderTextContent`'s page slice:
`docFile.content.slice((currentPage - 1) * 2000, startIndex + (double ? 4000 : 2000))`. -/
def pageContent (doc : String) (currentPage : Nat) (dbl : Bool) : String :=
  jsSlice doc ((currentPage - 1) * 2000)
    ((currentPage - 1) * 2000 + (if dbl then 4000 else 2000))

/-- The highlight application in `renderTextContent`: when
`isPlaying && currentText && readingHighlight`, the stored span is applied
to the page slice (before / highlighted / after pieces of `content`) with no
check that the slice corresponds to `currentText`. -/
def renderedReadingHighlight (doc : String) (currentPage : Nat) (dbl : Bool)
    (isPlaying : Bool) (currentText : String) (rh : Option (Nat × Nat)) :
    Option (String × String × String) :=
  let content := pageContent doc currentPage dbl
  if isPlaying && !(currentText = "") then
    match rh with
    | some (s, e) =>
      some (jsSlice content 0 s, jsSlice content s e, jsSlice content e content.length)
    | none => none
  else none

/-! ## Conversion Job Runner: `fileConverter.ts` and the `FileConverter`
component (`handleFilesDrop` / `retryJob`) -/

inductive JobStatus where
  | pending | processing | completed | error
deriving DecidableEq

/-- The fields of `ConversionJob` the runner mutates. -/
structure Job where
  status : JobStatus
  progress : ℚ
  outputUrl : Option String
  errorMsg : Option String
deriving DecidableEq

/-- A freshly created job: `{ status: 'pending', progress: 0 }`. -/
def initJob : Job :=
  { status := .pending, progress := 0, outputUrl := none, errorMsg := none }

/-- Progress values emitted by `convertEpubToPdfAdvanced` on a successful
run with `n` spine items: `10, 20, 30`, then `30 + (k/n)*60` for each item
`k`, then `95, 100`. -/
def advancedEmissions (n : Nat) : List ℚ :=
  10 :: 20 :: 30 ::
    ((List.range n).map (fun (k : Nat) => 30 + ((k : ℚ) / (n : ℚ)) * 60) ++ [95, 100])

/-- Progress values emitted by `convertEpubToPdfSimple` on a successful run
with `n` spine items: `20, 40`, then `40 + (k/n)*50` per item, then `90, 100`. -/
def simpleEmissions (n : Nat) : List ℚ :=
  20 :: 40 ::
    ((List.range n).map (fun (k : Nat) => 40 + ((k : ℚ) / (n : ℚ)) * 50) ++ [90, 100])

/-- Progress values emitted by `convertAzw3ToPdf` before it rejects. -/
def azw3Emissions : List ℚ := [25, 50, 75]

/-- The full progress sequence forwarded by `convertFileEnhanced` for an
EPUB job: `2, 5`, then the advanced converter's emissions; if the advanced
converter fails (having emitted some prefix `advEmitted`), `10` is emitted
("Reset progress for fallback") and the simple converter runs. -/
def epubTrace (advFails : Bool) (advEmitted : List ℚ) (simpleEmitted : List ℚ) :
    List ℚ :=
  2 :: 5 :: (advEmitted ++ if advFails then 10 :: simpleEmitted else [])

/-- The progress sequence forwarded for an AZW3 job (which always fails). -/
def azw3Trace : List ℚ := 2 :: 5 :: azw3Emissions

/-- The error message thrown by `convertFileEnhanced`'s catch-all:
`` `Conversion failed: ${error.message}` ``. -/
def enhancedErrorMsg (inner : String) : String := "Conversion failed: " ++ inner

/-- The job states stored by `handleFilesDrop` while the conversion runs:
the state after `status := 'processing'`, then one state per forwarded
progress callback — each reported value written verbatim into `progress`. -/
def runJobStates (j : Job) (emissions : List ℚ) : List Job :=
  let j1 : Job := { j with status := .processing }
  j1 :: emissions.map (fun p => { j1 with progress := p })

/-- The final update of `handleFilesDrop` / `retryJob`: on success
`{ status: 'completed', outputUrl, progress: 100 }`; on failure
`{ status: 'error', error: error.message, progress: 0 }`. -/
def finishJob (j1 : Job) (outcome : Except String String) : Job :=
  match outcome with
  | .ok url => { j1 with status := .completed, outputUrl := some url, progress := 100 }
  | .error msg => { j1 with status := .error, errorMsg := some msg, progress := 0 }

/-! ## Resource release on removal: `FileConverter.removeJob` and
`MusicPlayerModule.removeTrack` -/

/-- The slice of `ConversionJob` relevant to removal. -/
structure ConvJob where
  id : String
  outputUrl : Option String
deriving DecidableEq

/-- The `FileConverter` component's state, with the multiset of revoked
object URLs made explicit (each `URL.revokeObjectURL(u)` call conses `u`). -/
structure ConvState where
  jobs : List ConvJob
  revoked : List String
deriving DecidableEq

/-- Source:
```js
const job = jobs.find(j => j.id === jobId);
if (job?.outputUrl) { URL.revokeObjectURL(job.outputUrl); }
setJobs(prev => prev.filter(j => j.id !== jobId));
``` -/
def removeJob (st : ConvState) (jobId : String) : ConvState :=
  let rev :=
    match st.jobs.find? (fun j => j.id = jobId) with
    | some j => match j.outputUrl with
      | some u => u :: st.revoked
      | none => st.revoked
    | none => st.revoked
  { jobs := st.jobs.filter (fun j => ¬ j.id = jobId), revoked := rev }

structure Track where
  id : String
  url : String
deriving DecidableEq

/-- The music-player state touched by `removeTrack`. -/
structure MusicState where
  tracks : List Track
  currentTrack : Option Track
  revoked : List String
deriving DecidableEq

/-- Source:
```js
const track = music.tracks.find(t => t.id === trackId);
if (track) { URL.revokeObjectURL(track.url); }
setMusic(prev => { const newTracks = prev.tracks.filter(t => t.id !== trackId);
  return { ...prev, tracks: newTracks,
    currentTrack: prev.currentTrack?.id === trackId
      ? (newTracks.length > 0 ? newTracks[0] : null) : prev.currentTrack }; });
``` -/
def removeTrack (st : MusicState) (trackId : String) : MusicState :=
  let rev :=
    match st.tracks.find? (fun t => t.id = trackId) with
    | some t => t.url :: st.revoked
    | none => st.revoked
  let newTracks := st.tracks.filter (fun t => ¬ t.id = trackId)
  { tracks := newTracks,
    currentTrack :=
      if st.currentTrack.map Track.id = some trackId then newTracks.head?
      else st.currentTrack,
    revoked := rev }

/-! ## `PDFRenderer.renderPage` (page cache) -/

/-- The data cached per page.  The canvas object is represented by an
identity tag; width/height come from the viewport at the render scale. -/
structure PDFPageData where
  pageNumber : Nat
  canvasId : Nat
  textContent : String
  width : ℚ
  height : ℚ
deriving DecidableEq

/-- Renderer state: whether a PDF is loaded, and the `pages` map
(association list keyed by page number — `const cacheKey = pageNumber`,
the scale is not part of the key). -/
structure RendererState where
  pdfLoaded : Bool
  pages : List (Nat × PDFPageData)
deriving DecidableEq

def findPage (m : List (Nat × PDFPageData)) (k : Nat) : Option PDFPageData :=
  (m.find? (fun e => e.1 = k)).map (fun e => e.2)

/-- `renderPage(pageNumber, scale)`: throws if no PDF is loaded; returns the
cached entry if `pages` has the page number (whatever scale it was rendered
at); otherwise renders via the abstract platform capability `render`
(pdf.js `getPage`/`getViewport`/`render`/`getTextContent`) and caches. -/
def renderPage (render : Nat → ℚ → PDFPageData) (st : RendererState)
    (pageNumber : Nat) (scale : ℚ) : Except String (PDFPageData × RendererState) :=
  if !st.pdfLoaded then .error "PDF not loaded"
  else
    match findPage st.pages pageNumber with
    | some d => .ok (d, st)
    | none =>
      let d := render pageNumber scale
      .ok (d, { st with pages := (pageNumber, d) :: st.pages })

/-- `clearCache()`: `this.pages.clear()`. -/
def clearCache (st : RendererState) : RendererState := { st with pages := [] }

/-! ### Lemmas about the boundary scan -/

lemma wordEndOffset_cons_zero (w : List Char) (ws : List (List Char)) :
    wordEndOffset (w :: ws) 0 = w.length := by
  simp [wordEndOffset, charCountAt]

lemma wordEndOffset_cons_succ (w : List Char) (ws : List (List Char)) (j : Nat) :
    wordEndOffset (w :: ws) (j + 1) = w.length + 1 + wordEndOffset ws j := by
  simp [wordEndOffset, charCountAt, List.take_succ_cons]
  omega

lemma findWordIndexAux_spec (o : Nat) :
    ∀ (ws : List (List Char)) (cc i : Nat),
      findWordIndexAux o ws cc i =
        match (List.range ws.length).find?
            (fun j => decide (o ≤ cc + wordEndOffset ws j)) with
        | some j => i + j
        | none => 0
  | [], cc, i => by simp [findWordIndexAux]
  | w :: ws, cc, i => by
    rw [findWordIndexAux]
    by_cases h : o ≤ cc + w.length
    · have h0 : decide (o ≤ cc + wordEndOffset (w :: ws) 0) = true := by
        simpa [wordEndOffset_cons_zero] using h
      simp [List.length_cons, List.range_succ_eq_map, List.find?_cons, h0, h]
    · have h0 : decide (o ≤ cc + wordEndOffset (w :: ws) 0) = false := by
        simpa [wordEndOffset_cons_zero] using h
      rw [if_neg h, findWordIndexAux_spec o ws (cc + w.length + 1) (i + 1)]
      have hpred :
          ((fun j => decide (o ≤ cc + wordEndOffset (w :: ws) j)) ∘ Nat.succ) =
            fun j => decide (o ≤ cc + w.length + 1 + wordEndOffset ws j) := by
        funext j
        simp only [Function.comp, Nat.succ_eq_add_one, wordEndOffset_cons_succ]
        congr 1
        exact propext ⟨fun hh => by omega, fun hh => by omega⟩
      rw [List.length_cons, List.range_succ_eq_map, List.find?_cons, h0,
        List.find?_map, hpred]
      cases (List.range ws.length).find?
          (fun j => decide (o ≤ cc + w.length + 1 + wordEndOffset ws j)) with
      | none => simp
      | some j => simp; ring

/-! ### Lemmas about `join(' ')` lengths (for the highlight-range bound) -/

lemma intercalate_sep_nil (sep : Char) :
    List.intercalate [sep] ([] : List (List Char)) = [] := by
  simp [List.intercalate]

lemma intercalate_sep_singleton (sep : Char) (w : List Char) :
    List.intercalate [sep] [w] = w := by
  simp [List.intercalate]

lemma intercalate_sep_cons₂ (sep : Char) (a b : List Char) (t : List (List Char)) :
    List.intercalate [sep] (a :: b :: t) =
      a ++ sep :: List.intercalate [sep] (b :: t) := by
  simp [List.intercalate, List.intersperse_cons_cons]

lemma length_intercalate_sep (sep : Char) :
    ∀ ws : List (List Char), ws ≠ [] →
      (List.intercalate [sep] ws).length + 1 = (ws.map List.length).sum + ws.length
  | [], h => absurd rfl h
  | [w], _ => by simp [intercalate_sep_singleton]
  | a :: b :: t, _ => by
    have ih := length_intercalate_sep sep (b :: t) (by simp)
    rw [intercalate_sep_cons₂]
    simp only [List.length_append, List.length_cons, List.map_cons, List.sum_cons] at *
    omega

lemma sum_take_le_nat (l : List Nat) (k : Nat) : (l.take k).sum ≤ l.sum :=
  (List.take_sublist k l).sum_le_sum (fun a _ => Nat.zero_le a)

lemma sum_take_succ_nat (l : List Nat) (i : Nat) (h : i < l.length) :
    (l.take (i + 1)).sum = (l.take i).sum + l.get ⟨i, h⟩ := by
  rw [List.take_succ]
  rw [List.getElem?_eq_getElem h]
  rw [List.sum_append]
  simp

/-- The char range computed by the reading-progress effect for word `i`
ends no later than the end of the joined word list. -/
lemma highlight_end_le (sep : Char) (ws : List (List Char)) (i : Nat)
    (h : i < ws.length) :
    (List.intercalate [sep] (ws.take i)).length + (if 0 < i then 1 else 0) +
      (ws.get ⟨i, h⟩).length ≤ (List.intercalate [sep] ws).length := by
  have hne : ws ≠ [] := by
    intro hh
    subst hh
    simp at h
  have hws := length_intercalate_sep sep ws hne
  have hiL : i < (ws.map List.length).length := by simpa using h
  have hkey := sum_take_succ_nat (ws.map List.length) i hiL
  have hget : (ws.map List.length).get ⟨i, hiL⟩ = (ws.get ⟨i, h⟩).length := by
    simp
  rw [hget] at hkey
  have h2 := sum_take_le_nat (ws.map List.length) (i + 1)
  have hY : ((ws.map List.length).take 0).sum = 0 := by simp
  rcases Nat.eq_zero_or_pos i with hi | hi
  · subst hi
    rw [List.take_zero, intercalate_sep_nil, if_neg (by omega)]
    simp only [List.length_nil]
    omega
  · have hlen : (ws.take i).length = i := by
      rw [List.length_take]
      omega
    have hTne : ws.take i ≠ [] := by
      intro hh
      rw [hh] at hlen
      simp at hlen
      omega
    have ht := length_intercalate_sep sep (ws.take i) hTne
    rw [hlen, List.map_take] at ht
    rw [if_pos hi]
    omega

lemma mem_of_mem_getLast? {α : Type} {l : List α} {x : α}
    (h : x ∈ l.getLast?) : x ∈ l := by
  obtain ⟨hne, rfl⟩ := List.mem_getLast?_eq_getLast h
  exact List.getLast_mem hne

/-! ## Claim theorems -/

/-- C1.  The claim says a late `onBoundary` event from a superseded
`speak()` request is dropped by a generation/request-identity check before
it can mutate state.  The code has no such check: after
`speak("Hello world")` then `speak("Goodbye")` (current utterance
generation 2, cursor 0), a late word-boundary event from the first
utterance (closing over `"Hello world"`, `charIndex` 6) still runs
`setCurrentWordIndex` and moves the cursor to 1 — an index computed
against the superseded text while `currentText` is `"Goodbye"`. -/
theorem stale_boundary_event_mutates_state :
    ((onStartEvent (speakUpdate 2 "Goodbye"
        (onStartEvent (speakUpdate 1 "Hello world" initHookState)))).currentUtterance
      = some 2) ∧
    ((onStartEvent (speakUpdate 2 "Goodbye"
        (onStartEvent (speakUpdate 1 "Hello world" initHookState)))).currentWordIndex
      = 0) ∧
    ((onBoundaryEvent "Hello world" "word" 6
        (onStartEvent (speakUpdate 2 "Goodbye"
          (onStartEvent (speakUpdate 1 "Hello world" initHookState))))).currentWordIndex
      = 1) ∧
    ((onBoundaryEvent "Hello world" "word" 6
        (onStartEvent (speakUpdate 2 "Goodbye"
          (onStartEvent (speakUpdate 1 "Hello world" initHookState))))).currentText
      = "Goodbye") := by
  decide

/-- C2 (counterexample).  The claim says that when no word qualifies
(offset beyond the end of the text) the previous cursor is retained
unchanged.  In the code `wordIndex` is initialised to `0` and the loop
falls through without a break, so the cursor is reset to `0` instead:
for text `"a b c"` with cursor at word 2, a boundary event with offset 10
(beyond the text, all cumulative word ends are < 10) sets the cursor to 0,
not 2. -/
theorem out_of_range_boundary_resets_cursor :
    ((onBoundaryEvent "a b c" "word" 4
        (onStartEvent (speakUpdate 1 "a b c" initHookState))).currentWordIndex = 2) ∧
    (splitWs "a b c").length = 3 ∧
    wordEndOffset (splitWs "a b c") 0 < 10 ∧
    wordEndOffset (splitWs "a b c") 1 < 10 ∧
    wordEndOffset (splitWs "a b c") 2 < 10 ∧
    ((onBoundaryEvent "a b c" "word" 10
        (onBoundaryEvent "a b c" "word" 4
          (onStartEvent (speakUpdate 1 "a b c" initHookState)))).currentWordIndex = 0) := by
  decide

/-- C2 (amended).  On a word-boundary event at offset `o`, the handler sets
the cursor to the first (least) index of a whitespace-split word whose
cumulative end offset (`charCount + wordLength`) is `≥ o`, and to `0` —
the loop variable's initial value, not the previous cursor — when no word
qualifies.  (`specScanFirstQualifying` is the spec-side description:
`find?` over `range` returns the least qualifying index, `0` otherwise.) -/
theorem boundary_scan_selects_first_qualifying_or_zero
    (t : String) (o : Nat) (s : HookState) :
    (onBoundaryEvent t "word" o s).currentWordIndex =
      specScanFirstQualifying o (splitWs t) := by
  simp only [onBoundaryEvent, if_pos]
  rw [findWordIndex, findWordIndexAux_spec]
  simp [specScanFirstQualifying]

/-- C4 (counterexample).  The claim says the stored volume is the silent
clamp of the input into `[0,1]` for every input.  For input volume `0`
(which is in range — its clamp is `0`), the code's `options.volume || 1`
replaces the falsy `0` with the default `1`, so `1` is stored. -/
theorem volume_zero_not_clamped :
    storedVolume ⟨1, 1, 0⟩ = 1 ∧
    specClamp 0 1 ((⟨1, 1, 0⟩ : SpeechOptions).volume) = 0 ∧
    storedVolume ⟨1, 1, 0⟩ ≠ specClamp 0 1 ((⟨1, 1, 0⟩ : SpeechOptions).volume) := by
  decide

/-- C4 (amended).  For every `SpeechOptions` input whose rate, pitch and
volume are nonzero, the values stored on the utterance are exactly the
claimed clamps (rate into `[0.1,10]`, pitch into `[0,2]`, volume into
`[0,1]`); a zero (JS-falsy) input is first replaced by the default `1`. -/
theorem speech_params_clamped_unless_falsy (o : SpeechOptions)
    (hr : o.rate ≠ 0) (hp : o.pitch ≠ 0) (hv : o.volume ≠ 0) :
    storedRate o = specClamp (1/10) 10 o.rate ∧
    storedPitch o = specClamp 0 2 o.pitch ∧
    storedVolume o = specClamp 0 1 o.volume := by
  simp [storedRate, storedPitch, storedVolume, specClamp, jsOrDefault, hr, hp, hv]

/-- An out-of-range options sample: rate 15, pitch -1, volume 1.5. -/
def outOfRangeSample : SpeechOptions := ⟨15, -1, 3/2⟩

/-- Witness for C4: at rate 15 / pitch -1 / volume 1.5 the theorem applies
and the stored values evaluate to the bounds 10, 0, 1. -/
theorem speech_params_clamped_unless_falsy_witness :
    (storedRate outOfRangeSample = specClamp (1/10) 10 outOfRangeSample.rate ∧
     storedPitch outOfRangeSample = specClamp 0 2 outOfRangeSample.pitch ∧
     storedVolume outOfRangeSample = specClamp 0 1 outOfRangeSample.volume) ∧
    storedRate outOfRangeSample = 10 ∧
    storedPitch outOfRangeSample = 0 ∧
    storedVolume outOfRangeSample = 1 :=
  ⟨speech_params_clamped_unless_falsy outOfRangeSample
      (by norm_num [outOfRangeSample]) (by norm_num [outOfRangeSample])
      (by norm_num [outOfRangeSample]),
    by norm_num [storedRate, jsOrDefault, outOfRangeSample, min_def, max_def],
    by norm_num [storedPitch, jsOrDefault, outOfRangeSample, min_def, max_def],
    by norm_num [storedVolume, jsOrDefault, outOfRangeSample, min_def, max_def]⟩

/-- C9.  From a `Playing` state (`isPlaying`, not `isPaused`), `pause()`
followed by its platform `onpause` event, then `resume()` followed by its
`onresume` event, returns the state exactly to what it was — in particular
the word cursor and the current text are untouched, and the intermediate
paused state keeps the cursor too. -/
theorem pause_resume_preserves_cursor (s : HookState)
    (hp : s.isPlaying = true) (hq : s.isPaused = false) :
    onResumeEvent (resumeCmd true (onPauseEvent (pauseCmd true s))) = s ∧
    (onPauseEvent (pauseCmd true s)).currentWordIndex = s.currentWordIndex ∧
    (onPauseEvent (pauseCmd true s)).currentText = s.currentText ∧
    (onPauseEvent (pauseCmd true s)).isPlaying = true := by
  cases s with
  | mk pl pa tx wi ut =>
    simp only at hp hq
    subst hp
    subst hq
    simp [pauseCmd, resumeCmd, onPauseEvent, onResumeEvent]

/-- A concrete playing state (word 1 of "Hello world"). -/
def playingSample : HookState :=
  { isPlaying := true, isPaused := false, currentText := "Hello world",
    currentWordIndex := 1, currentUtterance := some 1 }

/-- Witness for C9 at `playingSample`. -/
theorem pause_resume_preserves_cursor_witness :
    onResumeEvent (resumeCmd true (onPauseEvent (pauseCmd true playingSample)))
      = playingSample ∧
    (onPauseEvent (pauseCmd true playingSample)).currentWordIndex =
      playingSample.currentWordIndex ∧
    (onPauseEvent (pauseCmd true playingSample)).currentText =
      playingSample.currentText ∧
    (onPauseEvent (pauseCmd true playingSample)).isPlaying = true :=
  pause_resume_preserves_cursor playingSample rfl rfl

/-- C3 (counterexample).  The claim says the highlight query returns "no
highlight" whenever the supplied slice does not correspond to the text
being read.  With document `"0123456789"` (page-1 slice `"0123456789"`),
while reading the unrelated text `"Hello world"` with stored span (0,5),
`renderTextContent` still applies the span to the page slice and
highlights `"01234"` — a span computed against the wrong text, not "no
highlight". -/
theorem highlight_shown_for_mismatched_slice :
    pageContent "0123456789" 1 false ≠ "Hello world" ∧
    renderedReadingHighlight "0123456789" 1 false true "Hello world" (some (0, 5)) =
      some ("", "01234", "56789") := by
  decide

/-- C3 (amended).  While playing with a nonempty current text and a stored
highlight span, `renderTextContent` applies the span verbatim to whatever
page slice is displayed — there is no check that the slice corresponds to
the text being read; "no highlight" is produced only when not playing, when
no text was submitted, or when no span is stored. -/
theorem highlight_applied_regardless_of_slice (doc : String) (p : Nat) (d : Bool)
    (ct : String) (s e : Nat) (hct : ct ≠ "") :
    renderedReadingHighlight doc p d true ct (some (s, e)) =
      some (jsSlice (pageContent doc p d) 0 s,
            jsSlice (pageContent doc p d) s e,
            jsSlice (pageContent doc p d) e (pageContent doc p d).length) ∧
    renderedReadingHighlight doc p d false ct (some (s, e)) = none ∧
    renderedReadingHighlight doc p d true "" (some (s, e)) = none ∧
    renderedReadingHighlight doc p d true ct none = none := by
  simp [renderedReadingHighlight, hct]

/-- Witness for C3's amended theorem: page 2 of a short document (an empty
slice — certainly not the text being read) still gets the span applied. -/
theorem highlight_applied_regardless_of_slice_witness :
    renderedReadingHighlight "0123456789" 2 false true "Hello world" (some (0, 5)) =
      some (jsSlice (pageContent "0123456789" 2 false) 0 5,
            jsSlice (pageContent "0123456789" 2 false) 5 5,
            jsSlice (pageContent "0123456789" 2 false) 5
              (pageContent "0123456789" 2 false).length) ∧
    renderedReadingHighlight "0123456789" 2 false false "Hello world" (some (0, 5)) = none ∧
    renderedReadingHighlight "0123456789" 2 false true "" (some (0, 5)) = none ∧
    renderedReadingHighlight "0123456789" 2 false true "Hello world" none = none := by
  have h := highlight_applied_regardless_of_slice "0123456789" 2 false
    "Hello world" 0 5 (by decide)
  simpa using h

/-- C5 (counterexample).  The claim says progress is monotonically
non-decreasing while the job is `Processing`, each reported value forwarded
verbatim.  On the EPUB path where the advanced converter fails after
emitting `10, 20`, `convertFileEnhanced` emits `10` again ("Reset progress
for fallback") before running the simple converter, so the stored progress
sequence `0, 2, 5, 10, 20, 10, 20, 40, 90, 100` decreases from 20 to 10
while every one of these states has `status = processing`. -/
theorem progress_decreases_on_fallback :
    ((runJobStates initJob (epubTrace true [10, 20] (simpleEmissions 0))).map
        Job.status = List.replicate 10 JobStatus.processing) ∧
    ¬ List.Chain' (fun a b => a ≤ b)
      ((runJobStates initJob (epubTrace true [10, 20] (simpleEmissions 0))).map
        Job.progress) := by
  constructor
  · decide
  · intro hch
    simp only [runJobStates, epubTrace, simpleEmissions, initJob, List.range_zero,
      List.map_nil, List.nil_append, List.map_cons, List.cons_append, List.append_nil,
      List.chain'_cons] at hch
    norm_num at hch

/-- C5 (amended).  The forwarded progress sequence is monotonically
non-decreasing on every run that does not take the advanced→simple
fallback: for an EPUB job whose advanced conversion succeeds (any number
`n` of spine items) and for an AZW3 job.  Only the fallback path (advanced
failure) re-emits `10` and breaks monotonicity. -/
theorem progress_monotone_without_fallback (n : Nat) :
    List.Chain' (fun a b : ℚ => a ≤ b) (epubTrace false (advancedEmissions n) []) ∧
    List.Chain' (fun a b : ℚ => a ≤ b) azw3Trace := by
  have hbound : ∀ x ∈ (List.range n).map (fun (k : Nat) => 30 + ((k : ℚ) / (n : ℚ)) * 60),
      30 ≤ x ∧ x ≤ 90 := by
    intro x hx
    obtain ⟨k, hk, rfl⟩ := List.mem_map.1 hx
    have hk' : k < n := List.mem_range.1 hk
    have hq0 : (0 : ℚ) ≤ (k : ℚ) / (n : ℚ) :=
      div_nonneg (Nat.cast_nonneg k) (Nat.cast_nonneg n)
    have hq1 : (k : ℚ) / (n : ℚ) ≤ 1 := by
      rcases Nat.eq_zero_or_pos n with hn | hn
      · subst hn
        simp
      · have hc : (0 : ℚ) < (n : ℚ) := by exact_mod_cast hn
        exact (div_le_one hc).2 (by exact_mod_cast hk'.le)
    constructor
    · nlinarith
    · nlinarith
  have hmid : List.Chain' (fun a b : ℚ => a ≤ b)
      ((List.range n).map (fun (k : Nat) => 30 + ((k : ℚ) / (n : ℚ)) * 60)) := by
    apply List.Pairwise.chain'
    apply (List.pairwise_lt_range n).map
    intro a b hab
    have h1 : ((a : ℚ) / (n : ℚ)) ≤ ((b : ℚ) / (n : ℚ)) := by
      rcases Nat.eq_zero_or_pos n with hn | hn
      · subst hn
        simp
      · have hc : (0 : ℚ) < (n : ℚ) := by exact_mod_cast hn
        exact (div_le_div_iff_of_pos_right hc).2 (by exact_mod_cast hab.le)
    nlinarith
  constructor
  · have htr : epubTrace false (advancedEmissions n) [] =
        2 :: 5 :: 10 :: 20 :: 30 ::
          ((List.range n).map (fun (k : Nat) => 30 + ((k : ℚ) / (n : ℚ)) * 60) ++
            [95, 100]) := by
      simp [epubTrace, advancedEmissions]
    rw [htr]
    rw [List.chain'_cons]
    refine ⟨by norm_num, ?_⟩
    rw [List.chain'_cons]
    refine ⟨by norm_num, ?_⟩
    rw [List.chain'_cons]
    refine ⟨by norm_num, ?_⟩
    rw [List.chain'_cons]
    refine ⟨by norm_num, ?_⟩
    rw [← List.cons_append]
    apply List.Chain'.append
    · exact List.chain'_cons'.2
        ⟨fun y hy => (hbound y (List.mem_of_mem_head? hy)).1, hmid⟩
    · norm_num [List.chain'_cons]
    · intro x hx y hy
      have hy' : (95 : ℚ) = y := by simpa using hy
      subst hy'
      have hx' := mem_of_mem_getLast? hx
      rcases List.mem_cons.1 hx' with h30 | hmidmem
      · subst h30
        norm_num
      · have := (hbound x hmidmem).2
        linarith
  · norm_num [azw3Trace, azw3Emissions, List.chain'_cons]

/-- C6.  Whenever the converter capability fails with message `msg`, the
final job update stores `status = error`, `progress = 0`, and exactly
`msg` in the job's error field; in particular an inner failure
`"corrupt archive"`, wrapped by `convertFileEnhanced` into
`"Conversion failed: corrupt archive"`, is stored as exactly that string. -/
theorem converter_failure_stored_verbatim :
    (∀ (j1 : Job) (msg : String),
      (finishJob j1 (Except.error msg)).status = JobStatus.error ∧
      (finishJob j1 (Except.error msg)).progress = 0 ∧
      (finishJob j1 (Except.error msg)).errorMsg = some msg) ∧
    (finishJob { initJob with status := JobStatus.processing }
        (Except.error (enhancedErrorMsg "corrupt archive"))).errorMsg =
      some "Conversion failed: corrupt archive" := by
  refine ⟨fun j1 msg => ⟨rfl, rfl, rfl⟩, ?_⟩
  decide

/-- C8.  Whenever the reading-progress effect computes a highlight range
`(charStart, charEnd)` for the current word of `currentText`, the range's
end does not exceed the text's length: `charEnd ≤ length(text)`.  (When the
guard fails the effect computes nothing and the previous highlight stands,
so every computed range satisfies the bound.) -/
theorem reading_highlight_end_within_text (text : String) (i cs ce : Nat)
    (h : computeHighlight text i = some (cs, ce)) : ce ≤ text.length := by
  by_cases hlt : i < (text.data.splitOn ' ').length
  · rw [computeHighlight, dif_pos hlt] at h
    simp only [Option.some.injEq, Prod.mk.injEq] at h
    obtain ⟨h1, h2⟩ := h
    subst h2
    have hb := highlight_end_le ' ' (text.data.splitOn ' ') i hlt
    rw [List.intercalate_splitOn text.data ' '] at hb
    have hlen : text.length = text.data.length := rfl
    omega
  · rw [computeHighlight, dif_neg hlt] at h
    exact absurd h (by simp)

/-- Witness for C8: for "Hello world" at word 1 the computed range is
(6, 11) and 11 is within the text's length 11. -/
theorem reading_highlight_end_within_text_witness :
    computeHighlight "Hello world" 1 = some (6, 11) ∧ 11 ≤ "Hello world".length :=
  ⟨by decide, reading_highlight_end_within_text "Hello world" 1 6 11 (by decide)⟩

/-- C7.  Removing a conversion job that holds an object URL revokes that
URL exactly once (one new entry on the revocation list), and invoking the
same removal again is a no-op (the state is unchanged, no second
revocation); likewise for removing a music track. -/
theorem remove_releases_url_once
    (cs : ConvState) (jobId : String) (j : ConvJob) (u : String)
    (hfind : cs.jobs.find? (fun x => x.id = jobId) = some j)
    (hurl : j.outputUrl = some u)
    (ms : MusicState) (trackId : String) (t : Track)
    (htfind : ms.tracks.find? (fun x => x.id = trackId) = some t) :
    (removeJob cs jobId).revoked = u :: cs.revoked ∧
    removeJob (removeJob cs jobId) jobId = removeJob cs jobId ∧
    (removeTrack ms trackId).revoked = t.url :: ms.revoked ∧
    removeTrack (removeTrack ms trackId) trackId = removeTrack ms trackId := by
  have hjnone : ((cs.jobs.filter (fun x => ¬ x.id = jobId)).find?
      (fun x => x.id = jobId)) = none := by
    apply List.find?_eq_none.2
    intro x hx
    have hpx := List.of_mem_filter hx
    simp only [decide_not, Bool.not_eq_eq_eq_not, Bool.not_true,
      decide_eq_false_iff_not] at hpx
    simp [hpx]
  have htnone : ((ms.tracks.filter (fun x => ¬ x.id = trackId)).find?
      (fun x => x.id = trackId)) = none := by
    apply List.find?_eq_none.2
    intro x hx
    have hpx := List.of_mem_filter hx
    simp only [decide_not, Bool.not_eq_eq_eq_not, Bool.not_true,
      decide_eq_false_iff_not] at hpx
    simp [hpx]
  have hjfilter : ∀ (l : List ConvJob),
      (l.filter (fun x => ¬ x.id = jobId)).filter (fun x => ¬ x.id = jobId) =
        l.filter (fun x => ¬ x.id = jobId) := by
    intro l
    rw [List.filter_filter]
    simp
  have htfilter :
      (ms.tracks.filter (fun x => ¬ x.id = trackId)).filter
          (fun x => ¬ x.id = trackId) =
        ms.tracks.filter (fun x => ¬ x.id = trackId) := by
    rw [List.filter_filter]
    simp
  refine ⟨?_, ?_, ?_, ?_⟩
  · simp [removeJob, hfind, hurl]
  · simp only [removeJob, hfind, hurl, hjnone, hjfilter]
  · simp [removeTrack, htfind]
  · simp only [removeTrack, htfind, htnone, htfilter]
    congr 1
    by_cases hc : ms.currentTrack.map Track.id = some trackId
    · rw [if_pos hc, ite_self]
    · rw [if_neg hc, if_neg hc]

/-- Concrete states for the C7 witness: one job and one track each holding
an object URL. -/
def convSample : ConvState :=
  { jobs := [{ id := "job1", outputUrl := some "blob:job" }], revoked := [] }

def musicSample : MusicState :=
  { tracks := [{ id := "trk1", url := "blob:trk" }],
    currentTrack := some { id := "trk1", url := "blob:trk" }, revoked := [] }

/-- Witness for C7 at the concrete states. -/
theorem remove_releases_url_once_witness :
    (removeJob convSample "job1").revoked = "blob:job" :: convSample.revoked ∧
    removeJob (removeJob convSample "job1") "job1" = removeJob convSample "job1" ∧
    (removeTrack musicSample "trk1").revoked = "blob:trk" :: musicSample.revoked ∧
    removeTrack (removeTrack musicSample "trk1") "trk1" =
      removeTrack musicSample "trk1" :=
  remove_releases_url_once convSample "job1"
    { id := "job1", outputUrl := some "blob:job" } "blob:job" (by decide) rfl
    musicSample "trk1" { id := "trk1", url := "blob:trk" } (by decide)

/-- C10.  `renderPage` caches by page number alone: after rendering page
`p` at scale `s₁`, a second `renderPage(p, s₂)` returns the cached page
data rendered at `s₁` (and leaves the cache unchanged), whatever `s₂` is;
only after `clearCache()` is the page re-rendered, now at `s₂`. -/
theorem renderPage_cache_ignores_scale
    (render : Nat → ℚ → PDFPageData) (st : RendererState) (p : Nat) (s₁ s₂ : ℚ)
    (hload : st.pdfLoaded = true) (hmiss : findPage st.pages p = none) :
    renderPage render st p s₁ =
      Except.ok (render p s₁, { st with pages := (p, render p s₁) :: st.pages }) ∧
    renderPage render { st with pages := (p, render p s₁) :: st.pages } p s₂ =
      Except.ok (render p s₁, { st with pages := (p, render p s₁) :: st.pages }) ∧
    renderPage render
        (clearCache { st with pages := (p, render p s₁) :: st.pages }) p s₂ =
      Except.ok (render p s₂,
        { pdfLoaded := st.pdfLoaded, pages := [(p, render p s₂)] }) := by
  refine ⟨?_, ?_, ?_⟩
  · simp [renderPage, hload, hmiss]
  · simp [renderPage, hload, findPage]
  · simp [renderPage, clearCache, hload, findPage]

/-- A placeholder platform render capability for the C10 witness: page
data whose width and height record the scale it was rendered at. -/
def renderSample (p : Nat) (s : ℚ) : PDFPageData :=
  { pageNumber := p, canvasId := p, textContent := "page", width := s, height := s }

/-- Witness for C10: an empty loaded renderer, page 1 first at scale 1,
then requested at scale 2. -/
theorem renderPage_cache_ignores_scale_witness :
    renderPage renderSample { pdfLoaded := true, pages := [] } 1 1 =
      Except.ok (renderSample 1 1,
        { pdfLoaded := true, pages := [(1, renderSample 1 1)] }) ∧
    renderPage renderSample { pdfLoaded := true, pages := [(1, renderSample 1 1)] } 1 2 =
      Except.ok (renderSample 1 1,
        { pdfLoaded := true, pages := [(1, renderSample 1 1)] }) ∧
    renderPage renderSample
        (clearCache { pdfLoaded := true, pages := [(1, renderSample 1 1)] }) 1 2 =
      Except.ok (renderSample 1 2, { pdfLoaded := true, pages := [(1, renderSample 1 2)] }) :=
  renderPage_cache_ignores_scale renderSample { pdfLoaded := true, pages := [] }
    1 1 2 rfl rfl

end DocReader
